import Mathlib

/-!
Verification development for the Twilio media-stream bridge
(`src/handlers/twilio_stream_handler.py`, `src/core/utils.py`,
`src/services/telephony_service.py`).

The Python source is shallowly embedded: pure helpers become Lean
functions over `Nat`/`Int` byte and sample lists, fallible operations
return `Option`/`Except`, and the two stream pumps become explicit
state-passing step functions over event lists.
-/

namespace LeadAgent

/-! ## Bytes and 16-bit PCM samples

`audioop` reads a fragment of width-2 frames as signed little-endian
16-bit samples.  Bytes are `Nat < 256`, samples are `Int` in
`[-32768, 32767]`. -/

/-- Interpret a byte list as signed little-endian 16-bit samples
(the view `audioop` takes of a width-2 fragment).  A trailing odd byte
cannot occur on the paths that use this (audioop raises first). -/
def bytesToSamples : List Nat → List Int
  | lo :: hi :: rest =>
      (if lo + 256 * hi < 32768 then ((lo + 256 * hi : Nat) : Int)
       else ((lo + 256 * hi : Nat) : Int) - 65536) :: bytesToSamples rest
  | [_] => []
  | [] => []

/-- Pack signed 16-bit samples back into little-endian bytes
(inverse of `bytesToSamples`; values are reduced mod 2^16 the way a
C `int16_t` store would). -/
def samplesToBytes : List Int → List Nat
  | [] => []
  | s :: rest =>
      (s % 65536).toNat % 256 :: (s % 65536).toNat / 256 :: samplesToBytes rest

/-- Wrap an `Int` to the signed 16-bit range, as a C cast to `int16_t` does. -/
def toInt16 (v : Int) : Int :=
  let u := v % 65536
  if u < 32768 then u else u - 65536

/-! ## `audioop.ratecv`

Model of CPython's `audioop.ratecv` for width 2, one channel, fresh
state (`None`), default filter weights (`weightA = 1`, `weightB = 0`,
for which the input filter line is the identity).  The C code first
divides both rates by their gcd, starts with `d = -outrate`, and then
alternates "consume one input frame (d += outrate)" with "while d >= 0:
emit an interpolated frame, d -= inrate".  Internally samples are
scaled by 2^16 (`GETSAMPLE32`), interpolated in `double` (exact for
these magnitudes, truncated toward zero by the `(int)` cast), and
scaled back with an arithmetic shift and an `int16_t` store. -/

/-- One interpolated output sample:
`(int)((prev*d + cur*(outrate-d)) / outrate)` followed by
`SETSAMPLE32` (arithmetic `>> 16` and `int16_t` store). -/
def ratecvOutSample (prev cur d : Int) (outrate : Nat) : Int :=
  toInt16 (Int.fdiv (Int.tdiv (prev * d + cur * ((outrate : Int) - d)) (outrate : Int)) 65536)

/-- The `ratecv` main loop after gcd reduction.  Invariant: called with
`d < 0`; consuming a frame adds `outrate` to `d`; once `d ≥ 0` the loop
emits `d / inrate + 1` frames (one per `d -= inrate` step until `d`
goes negative). -/
def ratecvLoop (inrate outrate : Nat) : Int → Int → Int → List Int → List Int
  | _, _, _, [] => []
  | d, _prev, cur, s :: rest =>
      let d' := d + (outrate : Int)
      let prev' := cur
      let cur' := s * 65536
      if d' < 0 then ratecvLoop inrate outrate d' prev' cur' rest
      else
        let k := d'.toNat / inrate + 1
        (List.range k).map (fun i => ratecvOutSample prev' cur' (d' - ((i * inrate : Nat) : Int)) outrate)
          ++ ratecvLoop inrate outrate (d' - ((k * inrate : Nat) : Int)) prev' cur' rest

/-- Model of `audioop.ratecv` on a sample list (width 2, mono, state `None`):
fails when a rate is not positive, otherwise reduces the rates by
their gcd and runs the loop from `d = -outrate`. -/
def ratecv (samples : List Int) (inrate outrate : Nat) : Option (List Int) :=
  if inrate = 0 ∨ outrate = 0 then none
  else
    let g := Nat.gcd inrate outrate
    some (ratecvLoop (inrate / g) (outrate / g) (-((outrate / g : Nat) : Int)) 0 0 samples)

/-! ## μ-law companding (`audioop.lin2ulaw` / `audioop.ulaw2lin`)

Faithful to the sox-derived tables in CPython's `audioop.c`:
`st_14linear2ulaw` (the caller feeds it the 16-bit sample arithmetically
shifted right by 2) and `st_ulaw2linear16`. -/

/-- Segment ends table `seg_uend`. -/
def segUend : List Nat := [0x3F, 0x7F, 0xFF, 0x1FF, 0x3FF, 0x7FF, 0xFFF, 0x1FFF]

/-- The C helper `search(val, seg_uend, 8)`: index of the first entry `≥ val`, else 8. -/
def segSearch (val : Nat) : Nat :=
  match (List.range 8).find? (fun i => val ≤ segUend.getD i 0) with
  | some i => i
  | none => 8

/-- Sign mask: `0x7F` for negative samples, `0xFF` otherwise. -/
def ulawMask (pcm14 : Int) : Nat := if pcm14 < 0 then 0x7F else 0xFF

/-- Magnitude of the (14-bit) sample. -/
def ulawAbs (pcm14 : Int) : Nat := (if pcm14 < 0 then -pcm14 else pcm14).toNat

/-- Clip the magnitude at `CLIP = 8159`. -/
def ulawClip (m : Nat) : Nat := if m > 8159 then 8159 else m

/-- The compander `st_14linear2ulaw` applied to a 16-bit sample: shift to 14 bits,
take sign and magnitude, clip at 8159, add `BIAS >> 2 = 33`, find the
segment, and assemble (then invert via the sign mask). -/
def st_14linear2ulaw (sample : Int) : Nat :=
  let pcm14 := Int.fdiv sample 4
  let magb := ulawClip (ulawAbs pcm14) + 33
  let seg := segSearch magb
  if 8 ≤ seg then 0x7F ^^^ ulawMask pcm14
  else ((seg <<< 4) ||| ((magb >>> (seg + 1)) &&& 0xF)) ^^^ ulawMask pcm14

/-- The expander `st_ulaw2linear16`: complement, expand the quantized mantissa and
segment, remove the bias, apply the sign. -/
def st_ulaw2linear16 (u : Nat) : Int :=
  let uc := (u % 256) ^^^ 0xFF
  let t : Int := (((uc &&& 0xF) <<< 3) + 0x84 : Nat)
  let t := t * ((2 : Int) ^ ((uc &&& 0x70) >>> 4))
  if uc &&& 0x80 ≠ 0 then 0x84 - t else t - 0x84

/-! ## Base64 (`base64.b64encode`, `base64.b64decode`, urlsafe variants)

Characters are modeled as their code points (`Nat`).  Decoding models
`binascii.a2b_base64` in non-strict mode: non-alphabet characters are
skipped, bytes are emitted eagerly per quad position, a completed pad
sequence (2 data chars + 2 pads, or 3 + 1) ends the parse, and a
leftover partial quad at end of input is an error. -/

/-- Standard-alphabet character for a 6-bit value. -/
def b64Char (v : Nat) : Nat :=
  if v < 26 then 65 + v
  else if v < 52 then 97 + (v - 26)
  else if v < 62 then 48 + (v - 52)
  else if v = 62 then 43
  else 47

/-- Standard-alphabet value of a character, `none` for non-alphabet. -/
def b64Val (c : Nat) : Option Nat :=
  if 65 ≤ c ∧ c ≤ 90 then some (c - 65)
  else if 97 ≤ c ∧ c ≤ 122 then some (c - 97 + 26)
  else if 48 ≤ c ∧ c ≤ 57 then some (c - 48 + 52)
  else if c = 43 then some 62
  else if c = 47 then some 63
  else none

/-- Model of `base64.b64encode` (no newlines): 3 bytes → 4 chars, with `=` padding. -/
def b64encode : List Nat → List Nat
  | b1 :: b2 :: b3 :: rest =>
      b64Char (b1 / 4) :: b64Char (b1 % 4 * 16 + b2 / 16) ::
      b64Char (b2 % 16 * 4 + b3 / 64) :: b64Char (b3 % 64) :: b64encode rest
  | [b1, b2] => [b64Char (b1 / 4), b64Char (b1 % 4 * 16 + b2 / 16), b64Char (b2 % 16 * 4), 61]
  | [b1] => [b64Char (b1 / 4), b64Char (b1 % 4 * 16), 61, 61]
  | [] => []

/-- Model of `binascii.a2b_base64` in non-strict mode.  Arguments: remaining
characters, quad position (0–3), pending bits (`leftchar`), count of
pads seen in the current pad run. -/
def b64DecodeLoop : List Nat → Nat → Nat → Nat → Option (List Nat)
  | [], 0, _, _ => some []
  | [], _ + 1, _, _ => none
  | c :: rest, qp, left, pads =>
      if c = 61 then
        if 2 ≤ qp ∧ 4 ≤ qp + (pads + 1) then some []
        else b64DecodeLoop rest qp left (pads + 1)
      else
        match b64Val c with
        | none => b64DecodeLoop rest qp left pads
        | some v =>
            match qp with
            | 0 => b64DecodeLoop rest 1 v 0
            | 1 => (b64DecodeLoop rest 2 (v % 16) 0).map (fun bs => (left * 4 + v / 16) :: bs)
            | 2 => (b64DecodeLoop rest 3 (v % 4) 0).map (fun bs => (left * 16 + v / 4) :: bs)
            | _ => (b64DecodeLoop rest 0 0 0).map (fun bs => (left * 64 + v) :: bs)

/-- Model of `base64.b64decode` (standard alphabet, `validate=False`). -/
def b64decodeBytes (cs : List Nat) : Option (List Nat) :=
  b64DecodeLoop cs 0 0 0

/-- Model of `base64.urlsafe_b64decode`: translate `-`/`_` to `+`/`/`, then decode. -/
def urlsafeB64decode (cs : List Nat) : Option (List Nat) :=
  b64decodeBytes (cs.map fun c => if c = 45 then 43 else if c = 95 then 47 else c)

/-! ## `src/core/utils.py` -/

/-- Model of `audioop.lin2ulaw(fragment, 2)` at the sample level: each 16-bit
sample is arithmetically shifted right by 2 and companded
(`st_14linear2ulaw(GETSAMPLE32(...) >> 18)`). -/
def lin2ulaw (samples : List Int) : List Nat := samples.map st_14linear2ulaw

/-- Model of `audioop.ulaw2lin(fragment, 2)` at the sample level. -/
def ulaw2lin (bs : List Nat) : List Int := bs.map st_ulaw2linear16

/-- Model of `utils.convert_pcm_audio_to_mulaw` with the default rates
(`ADK_TTS_OUTPUT_SAMPLE_RATE = 24000` → `TWILIO_SAMPLE_RATE = 8000`,
the only rates used by the handler): resample with `audioop.ratecv`,
compand with `audioop.lin2ulaw`, base64-encode.  `none` models the
`audioop.error` raised when the fragment is not a whole number of
16-bit frames; the result is the code-point list of the base64 string. -/
def convert_pcm_audio_to_mulaw (pcm : List Nat) : Option (List Nat) :=
  if pcm.length % 2 ≠ 0 then none
  else
    match ratecv (bytesToSamples pcm) 24000 8000 with
    | none => none
    | some down => some (b64encode (lin2ulaw down))

/-- Model of `utils.convert_mulaw_audio_to_pcm`: base64-decode, expand with
`audioop.ulaw2lin`, resample 8000 Hz → 24000 Hz.  `none` models the
`binascii.Error` raised by `base64.b64decode` on an unparseable
payload. -/
def convert_mulaw_audio_to_pcm (payload : List Nat) : Option (List Nat) :=
  match b64decodeBytes payload with
  | none => none
  | some mulaw =>
      match ratecv (ulaw2lin mulaw) 8000 24000 with
      | none => none
      | some up => some (samplesToBytes up)

/-! ## UTF-8 decoding (`bytes.decode("utf-8")`)

Strict UTF-8: rejects stray continuation bytes, overlong encodings,
surrogate code points and values above `U+10FFFF`, exactly as Python's
default `utf-8` codec does.  Returns code points. -/

/-- Is `b` a continuation byte `10xxxxxx`? -/
def isCont (b : Nat) : Bool := 128 ≤ b ∧ b < 192

/-- Strict UTF-8 decoder; `none` models `UnicodeDecodeError`. -/
def utf8Decode : List Nat → Option (List Nat)
  | [] => some []
  | b :: rest =>
      if b < 0x80 then (utf8Decode rest).map (b :: ·)
      else if 0xC2 ≤ b ∧ b ≤ 0xDF then
        match rest with
        | c1 :: rest' =>
            if isCont c1 then
              (utf8Decode rest').map (((b - 0xC0) * 64 + (c1 - 0x80)) :: ·)
            else none
        | _ => none
      else if 0xE0 ≤ b ∧ b ≤ 0xEF then
        match rest with
        | c1 :: c2 :: rest' =>
            if isCont c1 ∧ isCont c2 then
              let cp := (b - 0xE0) * 4096 + (c1 - 0x80) * 64 + (c2 - 0x80)
              if cp < 0x800 ∨ (0xD800 ≤ cp ∧ cp ≤ 0xDFFF) then none
              else (utf8Decode rest').map (cp :: ·)
            else none
        | _ => none
      else if 0xF0 ≤ b ∧ b ≤ 0xF4 then
        match rest with
        | c1 :: c2 :: c3 :: rest' =>
            if isCont c1 ∧ isCont c2 ∧ isCont c3 then
              let cp := (b - 0xF0) * 262144 + (c1 - 0x80) * 4096 +
                (c2 - 0x80) * 64 + (c3 - 0x80)
              if cp < 0x10000 ∨ 0x10FFFF < cp then none
              else (utf8Decode rest').map (cp :: ·)
            else none
        | _ => none
      else none

/-! ## JSON (`json.loads`)

A recursive-descent parser over code points following the JSON grammar
accepted by Python's `json.loads` (strict mode: no control characters
inside strings, no leading zeros, `NaN`-style extensions omitted —
none of which the bridge relies on).  Numbers and string contents are
kept as raw code-point lists; the bridge only branches on the shape of
the decoded value.  The `fuel` parameter bounds the nesting depth and
is instantiated with the input length, which nesting can never
exceed. -/

inductive Json where
  | null
  | bool (b : Bool)
  | num (raw : List Nat)
  | str (s : List Nat)
  | arr (xs : List Json)
  | obj (fields : List (List Nat × Json))

/-- JSON whitespace: space, tab, newline, carriage return. -/
def isJsonWs (c : Nat) : Bool := c = 0x20 ∨ c = 0x09 ∨ c = 0x0A ∨ c = 0x0D

def skipWs : List Nat → List Nat
  | [] => []
  | c :: rest => if isJsonWs c then skipWs rest else c :: rest

def isDigit (c : Nat) : Bool := 48 ≤ c ∧ c ≤ 57

/-- Hexadecimal digit value, for `\uXXXX` escapes. -/
def hexVal (c : Nat) : Option Nat :=
  if 48 ≤ c ∧ c ≤ 57 then some (c - 48)
  else if 97 ≤ c ∧ c ≤ 102 then some (c - 97 + 10)
  else if 65 ≤ c ∧ c ≤ 70 then some (c - 65 + 10)
  else none

/-- Body of a JSON string after the opening quote: returns the decoded
code points and the input after the closing quote. -/
def parseStringBody : List Nat → Option (List Nat × List Nat)
  | [] => none
  | c :: rest =>
      if c = 34 then some ([], rest)
      else if c = 92 then
        match rest with
        | [] => none
        | e :: rest' =>
            if e = 34 ∨ e = 92 ∨ e = 47 then
              (parseStringBody rest').map (fun p => (e :: p.1, p.2))
            else if e = 98 then (parseStringBody rest').map (fun p => (8 :: p.1, p.2))
            else if e = 102 then (parseStringBody rest').map (fun p => (12 :: p.1, p.2))
            else if e = 110 then (parseStringBody rest').map (fun p => (10 :: p.1, p.2))
            else if e = 114 then (parseStringBody rest').map (fun p => (13 :: p.1, p.2))
            else if e = 116 then (parseStringBody rest').map (fun p => (9 :: p.1, p.2))
            else if e = 117 then
              match rest' with
              | h1 :: h2 :: h3 :: h4 :: rest'' =>
                  match hexVal h1, hexVal h2, hexVal h3, hexVal h4 with
                  | some v1, some v2, some v3, some v4 =>
                      (parseStringBody rest'').map
                        (fun p => ((v1 * 4096 + v2 * 256 + v3 * 16 + v4) :: p.1, p.2))
                  | _, _, _, _ => none
              | _ => none
            else none
      else if c < 0x20 then none
      else (parseStringBody rest).map (fun p => (c :: p.1, p.2))

/-- Leading span of digits: the leading digits and the remainder. -/
def takeDigits : List Nat → List Nat × List Nat
  | [] => ([], [])
  | c :: rest =>
      if isDigit c then
        let p := takeDigits rest
        (c :: p.1, p.2)
      else ([], c :: rest)

/-- Number literal after an optional leading minus has been noted:
`int [frac] [exp]` with the no-leading-zero rule. -/
def parseNumTail (cs : List Nat) : Option (List Nat × List Nat) :=
  match cs with
  | [] => none
  | c :: rest =>
      if ¬ isDigit c then none
      else
        let intPart := if c = 48 then ([c], rest) else takeDigits (c :: rest)
        let afterInt := intPart.2
        let fracP :=
          match afterInt with
          | 46 :: d :: fr =>
              if isDigit d then
                let p := takeDigits (d :: fr)
                some (46 :: p.1, p.2)
              else none
          | _ => some ([], afterInt)
        match fracP with
        | none => none
        | some (fracTxt, afterFrac) =>
            let expP :=
              match afterFrac with
              | e :: er =>
                  if e = 101 ∨ e = 69 then
                    match er with
                    | s :: d :: er' =>
                        if (s = 43 ∨ s = 45) ∧ isDigit d then
                          let p := takeDigits (d :: er')
                          some (e :: s :: p.1, p.2)
                        else if isDigit s then
                          let p := takeDigits (s :: d :: er')
                          some (e :: p.1, p.2)
                        else none
                    | [s] =>
                        if isDigit s then some ([e, s], []) else none
                    | [] => none
                  else some ([], e :: er)
              | [] => some ([], [])
            match expP with
            | none => none
            | some (expTxt, afterExp) =>
                some (intPart.1 ++ fracTxt ++ expTxt, afterExp)

/-- Does `cs` start with `pre` (and if so, what follows)? -/
def stripLit (pre cs : List Nat) : Option (List Nat) :=
  match pre, cs with
  | [], rest => some rest
  | p :: ps, c :: rest => if p = c then stripLit ps rest else none
  | _ :: _, [] => none

mutual

/-- One JSON value (leading whitespace already skipped). -/
def parseValue (fuel : Nat) (cs : List Nat) : Option (Json × List Nat) :=
  match fuel with
  | 0 => none
  | fuel + 1 =>
      match cs with
      | [] => none
      | c :: rest =>
          if c = 34 then (parseStringBody rest).map (fun p => (Json.str p.1, p.2))
          else if c = 123 then parseObjBody fuel (skipWs rest) true
          else if c = 91 then parseArrBody fuel (skipWs rest) true
          else if c = 110 then (stripLit [117, 108, 108] rest).map ((Json.null, ·))
          else if c = 116 then (stripLit [114, 117, 101] rest).map ((Json.bool true, ·))
          else if c = 102 then (stripLit [97, 108, 115, 101] rest).map ((Json.bool false, ·))
          else if c = 45 then
            (parseNumTail rest).map (fun p => (Json.num (45 :: p.1), p.2))
          else (parseNumTail (c :: rest)).map (fun p => (Json.num p.1, p.2))

/-- Object fields after `{` (whitespace skipped); `first` is true before
the first field. -/
def parseObjBody (fuel : Nat) (cs : List Nat) (first : Bool) :
    Option (Json × List Nat) :=
  match fuel with
  | 0 => none
  | fuel + 1 =>
      match cs with
      | [] => none
      | c :: rest =>
          if c = 125 ∧ first then some (Json.obj [], rest)
          else if c = 34 then
            match parseStringBody rest with
            | none => none
            | some (key, afterKey) =>
                match skipWs afterKey with
                | 58 :: afterColon =>
                    match parseValue fuel (skipWs afterColon) with
                    | none => none
                    | some (v, afterVal) =>
                        match skipWs afterVal with
                        | 44 :: afterComma =>
                            match parseObjBody fuel (skipWs afterComma) false with
                            | some (Json.obj fields, rest') =>
                                some (Json.obj ((key, v) :: fields), rest')
                            | _ => none
                        | 125 :: rest' => some (Json.obj [(key, v)], rest')
                        | _ => none
                | _ => none
          else none

/-- Array elements after `[` (whitespace skipped). -/
def parseArrBody (fuel : Nat) (cs : List Nat) (first : Bool) :
    Option (Json × List Nat) :=
  match fuel with
  | 0 => none
  | fuel + 1 =>
      match cs with
      | [] => none
      | c :: rest =>
          if c = 93 ∧ first then some (Json.arr [], rest)
          else
            match parseValue fuel (c :: rest) with
            | none => none
            | some (v, afterVal) =>
                match skipWs afterVal with
                | 44 :: afterComma =>
                    match parseArrBody fuel (skipWs afterComma) false with
                    | some (Json.arr xs, rest') => some (Json.arr (v :: xs), rest')
                    | _ => none
                | 93 :: rest' => some (Json.arr [v], rest')
                | _ => none

end

/-- Model of `json.loads` over code points: parse one value, require only
whitespace afterwards; `none` models `json.JSONDecodeError`. -/
def jsonLoads (cs : List Nat) : Option Json :=
  match parseValue (cs.length + 1) (skipWs cs) with
  | none => none
  | some (v, rest) => if skipWs rest = [] then some v else none

/-- Model of `utils.decode_json_string`: `base64.urlsafe_b64decode`, then
`.decode("utf-8")`, then `json.loads`, with **only**
`json.JSONDecodeError` caught (the caught branch logs and falls off the
end of the function, returning Python `None`, modeled as `.ok none`).
A `binascii.Error` from base64 or a `UnicodeDecodeError` from UTF-8
propagates to the caller, modeled as `.error ()`. -/
def decode_json_string (blob : List Nat) : Except Unit (Option Json) :=
  match urlsafeB64decode blob with
  | none => .error ()
  | some bs =>
      match utf8Decode bs with
      | none => .error ()
      | some text =>
          match jsonLoads text with
          | none => .ok none
          | some j => .ok (some j)

/-! ## Transport frames and inference events
(`src/handlers/twilio_stream_handler.py`) -/

/-- Frames the bridge sends to Twilio over the WebSocket
(`websocket.send_json`). -/
inductive OutFrame where
  | mark (streamSid name : String)
  | clear (streamSid : String)
  | media (streamSid : String) (payload : List Nat)
deriving Repr, DecidableEq

/-- The `types.Blob` carried in a content part (`part.inline_data`);
`data = none` models a Python `None` data attribute. -/
structure InlineBlob where
  mime_type : String
  data : Option (List Nat)
deriving Repr, DecidableEq

/-- One `types.Part`; parts without inline data (text parts etc.) have
`inline_data = none`. -/
structure ContentPart where
  inline_data : Option InlineBlob
deriving Repr, DecidableEq

/-- An ADK live event as `agent_to_twilio_messaging` observes it.
`content = none` covers a falsy `event.content` as well as a content
with falsy `parts` (`None` or `[]` — both make
`event.content and event.content.parts and event.content.parts[0]`
falsy, which is the only way the handler looks at them).
`has_actions` is the truthiness of `event.actions`; `function_calls`
holds the names returned by `event.get_function_calls()`. -/
structure AgentEvent where
  turn_complete : Bool
  interrupted : Bool
  author : String
  has_actions : Bool
  function_calls : List String
  content : Option (List ContentPart)
deriving Repr, DecidableEq

/-- The expression `event.content and event.content.parts and event.content.parts[0]`. -/
def firstPart (e : AgentEvent) : Option ContentPart :=
  match e.content with
  | none => none
  | some ps => ps.head?

/-- Model of `_terminate_call_after_turn`: when `event.actions` and the tool-call
list are truthy, scan the calls and set the `terminate_call` latch on
`conclude_call`.  Returns the new latch value (the latch is never
reset). -/
def terminateCallAfterTurn (e : AgentEvent) (latch : Bool) : Bool :=
  latch || (e.has_actions && e.function_calls.any (· == "conclude_call"))

/-! ## The Agent→Twilio pump (`agent_to_twilio_messaging`) -/

/-- Mutable state touched by the Agent→Twilio pump: the
`terminate_call` latch, the local `turn_counter`, whether the WebSocket
is still open, the frames sent so far (oldest first), and how many
times `telephony_service.end_call` has been invoked from this pump. -/
structure AgentPumpState where
  terminate_call : Bool
  turn_counter : Nat
  wsOpen : Bool
  frames : List OutFrame
  endCalls : Nat
deriving Repr, DecidableEq

def initAgentPumpState : AgentPumpState :=
  { terminate_call := false, turn_counter := 0, wsOpen := true,
    frames := [], endCalls := 0 }

/-- Result of processing one event: `ok` continues with the next event;
`err` models an exception propagating to the pump's broad `except`
handler, which logs and ends the pump. -/
inductive StepResult where
  | ok (st : AgentPumpState)
  | err (st : AgentPumpState)
deriving Repr, DecidableEq

def StepResult.state : StepResult → AgentPumpState
  | .ok st => st
  | .err st => st

/-- Model of `websocket.send_json`: appends the frame when the socket is open;
sending after a close raises (`none`). -/
def sendFrame (st : AgentPumpState) (f : OutFrame) : Option AgentPumpState :=
  if st.wsOpen then some { st with frames := st.frames ++ [f] } else none

/-- The audio tail of the loop body: take the first content part; skip
when there is none or the event is user-authored; when the part's
inline data is an `audio/pcm` blob, transcode it and send a `media`
frame.  A `None` data attribute or an odd-length buffer raises inside
`convert_pcm_audio_to_mulaw`. -/
def audioPhase (streamSid : String) (e : AgentEvent) (st : AgentPumpState) : StepResult :=
  match firstPart e with
  | none => .ok st
  | some part =>
      if e.author == "user" then .ok st
      else
        match part.inline_data with
        | none => .ok st
        | some blob =>
            if blob.mime_type.startsWith "audio/pcm" then
              match blob.data with
              | none => .err st
              | some pcmData =>
                  match convert_pcm_audio_to_mulaw pcmData with
                  | none => .err st
                  | some payload =>
                      match sendFrame st (.media streamSid payload) with
                      | none => .err st
                      | some st' => .ok st'
            else .ok st

/-- The `interrupted` branch (send a `clear` frame), then the audio tail. -/
def interruptedPhase (streamSid : String) (e : AgentEvent) (st : AgentPumpState) : StepResult :=
  if e.interrupted then
    match sendFrame st (.clear streamSid) with
    | none => .err st
    | some st' => audioPhase streamSid e st'
  else audioPhase streamSid e st

/-- One iteration of the `async for` body in `agent_to_twilio_messaging`,
in source order: `_terminate_call_after_turn`; the `turn_complete`
branch — when the latch is set, `end_call` + `websocket.close(1000)`
and `break` (the surrounding `while True` then re-enters the
`async for`, so processing resumes with the *next* event; the `break`
skips this event's `interrupted`/audio handling), otherwise send the
`mark` frame named with the *current* counter and increment the counter
afterwards; then the `interrupted` branch; then the audio branch. -/
def agentStep (streamSid : String) (st0 : AgentPumpState) (e : AgentEvent) : StepResult :=
  let st := { st0 with terminate_call := terminateCallAfterTurn e st0.terminate_call }
  if e.turn_complete then
    if st.terminate_call then
      let st := { st with endCalls := st.endCalls + 1 }
      if st.wsOpen then .ok { st with wsOpen := false }
      else .err st
    else
      match sendFrame st (.mark streamSid ("turn_" ++ toString st.turn_counter ++ "_complete")) with
      | none => .err st
      | some st' => interruptedPhase streamSid e { st' with turn_counter := st'.turn_counter + 1 }
  else interruptedPhase streamSid e st

/-- Run the pump over a finite prefix of the live event stream.  `err`
ends the pump (caught by its `except`); an exhausted list returns the
state reached so far.  (In the source an exhausted generator makes the
`while True` spin without further effects, so the frames sent and
`end_call` count are exactly those of the finite trace.) -/
def runAgentPump (streamSid : String) : List AgentEvent → AgentPumpState → AgentPumpState
  | [], st => st
  | e :: rest, st =>
      match agentStep streamSid st e with
      | .ok st' => runAgentPump streamSid rest st'
      | .err st' => st'

/-- Mark frame appended by an event (in the non-terminating branch). -/
def markDelta (streamSid : String) (st : AgentPumpState) (e : AgentEvent) : List OutFrame :=
  if e.turn_complete then
    [.mark streamSid ("turn_" ++ toString st.turn_counter ++ "_complete")]
  else []

/-- Clear frame appended by an event. -/
def clearDelta (streamSid : String) (e : AgentEvent) : List OutFrame :=
  if e.interrupted then [.clear streamSid] else []

/-- Media frame appended by an event — a function of the author and the
*first* content part only. -/
def mediaDelta (streamSid : String) (e : AgentEvent) : List OutFrame :=
  match firstPart e with
  | none => []
  | some part =>
      if e.author == "user" then []
      else
        match part.inline_data with
        | none => []
        | some blob =>
            if blob.mime_type.startsWith "audio/pcm" then
              match blob.data with
              | none => []
              | some pcmData =>
                  match convert_pcm_audio_to_mulaw pcmData with
                  | none => []
                  | some payload => [.media streamSid payload]
            else []

def countMark (fs : List OutFrame) : Nat :=
  fs.countP fun f => match f with | .mark _ _ => true | _ => false

def countClear (fs : List OutFrame) : Nat :=
  fs.countP fun f => match f with | .clear _ => true | _ => false

/-- The base64 payloads of the `media` frames in a frame list, in order. -/
def mediaPayloads (fs : List OutFrame) : List (List Nat) :=
  fs.filterMap fun f => match f with | .media _ p => some p | _ => none

/-! ## The Twilio→Agent pump (`twilio_to_agent_messaging`) -/

/-- Incoming transport frames, as parsed from WebSocket JSON messages.
In `start`, `customParameters = none` models an absent key (the `.get`
returns `None`), and the inner `none` models an absent `lead_info`
(defaulted to `""`).  In `media`, `payload = none` models absent
`media`/`payload` keys (a `KeyError`). -/
inductive TwFrame where
  | start (streamSid callSid : String) (customParameters : Option (Option (List Nat)))
  | connected
  | media (payload : Option (List Nat))
  | mark
  | stop
  | closed
  | unknown
deriving Repr, DecidableEq

/-- State of the Twilio→Agent pump: whether `live_request_queue.close()`
was called, whether the initial prompt went out, the PCM blobs passed
to `send_realtime` (in order), and whether the pump ended via its
`except` handler. -/
structure TwilioPumpState where
  queueClosed : Bool
  promptSent : Bool
  sentAudio : List (List Nat)
  errored : Bool
deriving Repr, DecidableEq

def initTwilioPumpState : TwilioPumpState :=
  { queueClosed := false, promptSent := false, sentAudio := [], errored := false }

inductive TwStepResult where
  | next (st : TwilioPumpState)
  | stopPump (st : TwilioPumpState)
  | errPump (st : TwilioPumpState)
deriving Repr, DecidableEq

/-- One iteration of the receive loop.  Note the source uses a chain of
independent `if`s (not `elif`), but the event kinds are disjoint, so
one match is equivalent: `start`/`connected` only log a warning;
`media` decodes the payload (`KeyError` or `binascii.Error` propagates
to the pump's `except`, ending the pump) and forwards the transcoded
PCM; `stop`/`closed` close the request queue and `break`. -/
def twilioStep (st : TwilioPumpState) (f : TwFrame) : TwStepResult :=
  match f with
  | .start _ _ _ => .next st
  | .connected => .next st
  | .media p =>
      match p with
      | none => .errPump st
      | some payload =>
          match convert_mulaw_audio_to_pcm payload with
          | none => .errPump st
          | some pcm => .next { st with sentAudio := st.sentAudio ++ [pcm] }
  | .stop => .stopPump { st with queueClosed := true }
  | .closed => .stopPump { st with queueClosed := true }
  | .mark => .next st
  | .unknown => .next st

def runTwilioPumpFrames : List TwFrame → TwilioPumpState → TwilioPumpState
  | [], st => st
  | f :: rest, st =>
      match twilioStep st f with
      | .next st' => runTwilioPumpFrames rest st'
      | .stopPump st' => st'
      | .errPump st' => { st' with errored := true }

/-- Is the decoded lead context a JSON object (a Python `dict`)?
`send_initial_prompt_to_agent` calls `self.lead_info.get(...)`, which
raises `AttributeError` for every other shape, `None` included. -/
def leadIsDict : Option Json → Bool
  | some (Json.obj _) => true
  | _ => false

/-- Model of `twilio_to_agent_messaging`: first `send_initial_prompt_to_agent`
(whose `lead_info.get` call raises unless the lead context is a dict —
the exception is caught by the pump's `except`, ending the pump
immediately), then the receive loop. -/
def runTwilioPump (leadInfo : Option Json) (frames : List TwFrame) : TwilioPumpState :=
  if leadIsDict leadInfo then
    runTwilioPumpFrames frames { initTwilioPumpState with promptSent := true }
  else { initTwilioPumpState with errored := true }

/-! ## Handshake and teardown (`manage_stream`) -/

/-- Outcome of the handshake loop at the top of `manage_stream`. -/
inductive HandshakeResult where
  | active (streamSid callSid : String) (leadInfo : Option Json) (rest : List TwFrame)
  | emptySidClose
  | startCrash (callSid : String)
  | disconnected

/-- The `while True` handshake loop: read and discard frames until the
first `start`; on `start`, record the sids, decode the lead blob
(`custom_params.get` on a missing `customParameters` raises an
`AttributeError`, and `decode_json_string` can raise — either lands in
the outer `except`, `startCrash`), then `break`; after the loop,
`close(1002)` when the stream sid is falsy (`emptySidClose`).  Running
out of frames models the transport disconnecting
(`WebSocketDisconnect`). -/
def handshakeLoop : List TwFrame → HandshakeResult
  | [] => .disconnected
  | .start sid cid params :: rest =>
      (match params with
       | none => .startCrash cid
       | some leadOpt =>
           match decode_json_string (leadOpt.getD []) with
           | .error _ => .startCrash cid
           | .ok r => if sid = "" then .emptySidClose else .active sid cid r rest)
  | _ :: rest => handshakeLoop rest

/-- Number of frames the handshake loop reads from the transport. -/
def handshakeFramesRead : List TwFrame → Nat
  | [] => 0
  | .start _ _ _ :: _ => 1
  | _ :: rest => 1 + handshakeFramesRead rest

def isStartFrame : TwFrame → Bool
  | .start _ _ _ => true
  | _ => false

/-- Steps of the `finally` block of `manage_stream`. -/
inductive CleanupStep where
  | queueClose
  | cancelTasks
  | sessionClose
  | endCall
  | wsClose
deriving Repr, DecidableEq

/-- The `finally` block on the normal path (pump tasks exist):
`live_request_queue.close()` wrapped in its own `try`/`except`;
cancel the still-pending tasks; `await self.agent_session.close()`
only when `self.agent_session` is set (the source never assigns it,
so callers pass `sessionSet = false`); when a call sid is known,
`await end_call(call_sid)` — **not** guarded, so a
non-`TwilioException` failure there (`endCallRaises`) escapes the
`finally` and skips `websocket.close`.  Returns the executed steps in
order and whether an exception escaped. -/
def finallyCleanup (queueSet sessionSet : Bool) (callSid : String)
    (endCallRaises : Bool) : List CleanupStep × Bool :=
  let s1 := if queueSet then [CleanupStep.queueClose] else []
  let s2 := s1 ++ [CleanupStep.cancelTasks]
  let s3 := if sessionSet then s2 ++ [CleanupStep.sessionClose] else s2
  if callSid = "" then (s3 ++ [CleanupStep.wsClose], false)
  else
    let s4 := s3 ++ [CleanupStep.endCall]
    if endCallRaises then (s4, true)
    else (s4 ++ [CleanupStep.wsClose], false)

/-- Attribute state of the handler relevant to teardown.
`start_agent_session` assigns `self.live_request_queue` but reads the
agent session into a *local* variable, leaving `self.agent_session`
as `None` forever. -/
structure BridgeState where
  live_request_queue_set : Bool
  agent_session_set : Bool
deriving Repr, DecidableEq

def initBridgeState : BridgeState :=
  { live_request_queue_set := false, agent_session_set := false }

/-- Model of `start_agent_session`: creates the `LiveRequestQueue` and starts
`run_live`; `self.agent_session` is never assigned. -/
def start_agent_session (st : BridgeState) : BridgeState :=
  { st with live_request_queue_set := true }

/-- The observable outcome of one whole `manage_stream` run over a
finite trace of incoming transport frames and live events.
`ranActive` carries the final states of both pumps, the executed
`finally` steps, and the total number of `end_call` invocations over
the call (pump + `finally`).  `startErrorEndCall` is the except-branch
path (`end_call` when a call sid is known, `close(1011)`; the `finally`
then hits the unbound `agent_task` — a `NameError`).  The two pumps
touch disjoint state, and neither the `end_call` count nor either
pump's sends depend on how the scheduler interleaves them, so they are
run to completion independently here. -/
inductive CallResult where
  | ranActive (ag : AgentPumpState) (tw : TwilioPumpState)
      (cleanup : List CleanupStep × Bool) (totalEndCalls : Nat)
  | protocolClose
  | startErrorEndCall (endCallInExcept : Bool)
  | disconnectedEarly

/-- One whole call: handshake, `start_agent_session`, both pumps, and
the `finally` teardown (with `end_call` succeeding, the common case). -/
def runBridge (frames : List TwFrame) (events : List AgentEvent) : CallResult :=
  match handshakeLoop frames with
  | .disconnected => .disconnectedEarly
  | .emptySidClose => .protocolClose
  | .startCrash cid => .startErrorEndCall (cid ≠ "")
  | .active sid cid lead rest =>
      let bst := start_agent_session initBridgeState
      let ag := runAgentPump sid events initAgentPumpState
      let tw := runTwilioPump lead rest
      let cl := finallyCleanup bst.live_request_queue_set bst.agent_session_set cid false
      .ranActive ag tw cl (ag.endCalls + (if cid = "" then 0 else 1))

def CallResult.totalEndCallCount : CallResult → Nat
  | .ranActive _ _ _ n => n
  | .startErrorEndCall b => if b then 1 else 0
  | _ => 0

def CallResult.twilioSentAudio : CallResult → List (List Nat)
  | .ranActive _ tw _ _ => tw.sentAudio
  | _ => []

def CallResult.twilioErrored : CallResult → Bool
  | .ranActive _ tw _ _ => tw.errored
  | _ => false

def CallResult.cleanupSteps : CallResult → List CleanupStep
  | .ranActive _ _ cl _ => cl.1
  | _ => []

/-! ## Concrete frames and events used by witnesses and counterexamples -/

/-- A live event whose only effect is a `conclude_call` tool invocation. -/
def concludeEvt : AgentEvent :=
  { turn_complete := false, interrupted := false, author := "model",
    has_actions := true, function_calls := ["conclude_call"], content := none }

/-- A bare turn-complete event. -/
def turnEvt : AgentEvent :=
  { turn_complete := true, interrupted := false, author := "model",
    has_actions := false, function_calls := [], content := none }

/-- An event that is simultaneously a turn boundary and an interruption. -/
def turnInterruptEvt : AgentEvent :=
  { turn_complete := true, interrupted := true, author := "model",
    has_actions := false, function_calls := [], content := none }

/-- An event carrying audio only in its second content part. -/
def partTwoAudioEvt : AgentEvent :=
  { turn_complete := false, interrupted := false, author := "model",
    has_actions := false, function_calls := [],
    content := some [{ inline_data := none },
      { inline_data := some { mime_type := "audio/pcm;rate=24000", data := some [0, 0] } }] }

/-- A handshake `start` frame: sids `S1`/`C1`, lead blob `e30=`
(the base64url encoding of the JSON text of an empty object). -/
def startFrame : TwFrame := .start "S1" "C1" (some (some [101, 51, 48, 61]))

/-! ## Theorems -/
theorem bytesToSamples_length (bs : List Nat) (h : bs.length % 2 = 0) :
    (bytesToSamples bs).length = bs.length / 2 := by
  induction bs using bytesToSamples.induct with
  | case1 lo hi rest ih =>
      simp only [bytesToSamples, List.length_cons] at *
      rw [ih (by omega)]
      omega
  | case2 x => simp at h
  | case3 => simp [bytesToSamples]

theorem samplesToBytes_length (ss : List Int) :
    (samplesToBytes ss).length = 2 * ss.length := by
  induction ss with
  | nil => simp [samplesToBytes]
  | cons s rest ih => simp [samplesToBytes, ih]; omega

/-- Output length of the 3:1 (24000 Hz → 8000 Hz) loop: with
`d ∈ [-3, -1]` a frame is emitted on every third consumed input. -/
theorem ratecvLoop_down_length (xs : List Int) :
    ∀ d prev cur, -3 ≤ d → d ≤ -1 →
      (ratecvLoop 3 1 d prev cur xs).length = (xs.length + (d + 3).toNat) / 3 := by
  induction xs with
  | nil =>
      intro d prev cur h1 h2
      simp only [ratecvLoop, List.length_nil]
      omega
  | cons s rest ih =>
      intro d prev cur h1 h2
      have hcast : ((1 : Nat) : Int) = 1 := rfl
      simp only [ratecvLoop, hcast]
      by_cases hd : d + 1 < 0
      · rw [if_pos hd, ih (d + 1) cur (s * 65536) (by omega) (by omega)]
        simp only [List.length_cons]
        omega
      · have hd0 : d = -1 := by omega
        subst hd0
        rw [if_neg hd]
        rw [List.length_append, List.length_map, List.length_range]
        have hk : ((-1 : Int) + 1).toNat / 3 + 1 = 1 := by norm_num
        rw [hk]
        have harg : (-1 : Int) + 1 - ((1 * 3 : Nat) : Int) = -3 := by norm_num
        rw [harg, ih (-3) cur (s * 65536) (by omega) (by omega)]
        simp only [List.length_cons]
        omega

/-- Output length of the 1:3 (8000 Hz → 24000 Hz) loop: with
`d ∈ [-3, -1]` the first consumed frame emits `(d+4)` outputs and each
later frame emits three. -/
theorem ratecvLoop_up_length (xs : List Int) :
    ∀ d prev cur, -3 ≤ d → d ≤ -1 →
      (ratecvLoop 1 3 d prev cur xs).length =
        if xs.length = 0 then 0 else (d + 4).toNat + 3 * (xs.length - 1) := by
  induction xs with
  | nil =>
      intro d prev cur h1 h2
      simp [ratecvLoop]
  | cons s rest ih =>
      intro d prev cur h1 h2
      have hd' : ¬ d + ((3 : Nat) : Int) < 0 := by
        have : ((3 : Nat) : Int) = 3 := rfl
        omega
      simp only [ratecvLoop, if_neg hd']
      rw [List.length_append, List.length_map, List.length_range]
      have hc3 : ((3 : Nat) : Int) = 3 := rfl
      have hk : (d + ((3 : Nat) : Int)).toNat / 1 + 1 = (d + 4).toNat := by
        rw [hc3]; omega
      rw [hk]
      have harg : d + ((3 : Nat) : Int) - (((d + 4).toNat * 1 : Nat) : Int) = -1 := by
        rw [hc3]; push_cast; omega
      rw [harg, ih (-1) cur (s * 65536) (by omega) (by omega)]
      rcases rest with - | ⟨r, rs⟩
      · simp
      · simp only [List.length_cons]
        norm_num
        omega

theorem ulawMask_lt_256 (p : Int) : ulawMask p < 256 := by
  unfold ulawMask; split <;> norm_num

theorem st_14linear2ulaw_lt_256 (s : Int) : st_14linear2ulaw s < 256 := by
  simp only [st_14linear2ulaw]
  split
  · have := Nat.xor_lt_two_pow (n := 8) (x := 0x7F) (y := ulawMask (Int.fdiv s 4))
      (by norm_num) (by simpa using ulawMask_lt_256 _)
    simpa using this
  · next hseg =>
      have hsl : segSearch (ulawClip (ulawAbs (Int.fdiv s 4)) + 33) <<< 4 < 256 := by
        rw [Nat.shiftLeft_eq]
        norm_num
        omega
      have hand : (ulawClip (ulawAbs (Int.fdiv s 4)) + 33) >>>
          (segSearch (ulawClip (ulawAbs (Int.fdiv s 4)) + 33) + 1) &&& 0xF < 256 :=
        lt_of_le_of_lt Nat.and_le_right (by norm_num)
      have hor := Nat.or_lt_two_pow (n := 8) (by simpa using hsl) (by simpa using hand)
      have hx := Nat.xor_lt_two_pow (n := 8) (by simpa using hor)
        (by simpa using ulawMask_lt_256 (Int.fdiv s 4))
      simpa using hx

theorem b64Val_b64Char : ∀ v < 64, b64Val (b64Char v) = some v := by decide

theorem b64Char_ne_61 : ∀ v < 64, b64Char v ≠ 61 := by decide

/-- Decoding inverts encoding on byte lists. -/
theorem b64decode_b64encode (bs : List Nat) (h : ∀ b ∈ bs, b < 256) :
    b64decodeBytes (b64encode bs) = some bs := by
  suffices hmain : ∀ bs : List Nat, (∀ b ∈ bs, b < 256) →
      b64DecodeLoop (b64encode bs) 0 0 0 = some bs from hmain bs h
  intro bs
  induction bs using b64encode.induct with
  | case1 b1 b2 b3 rest ih =>
      intro h
      have hb1 : b1 < 256 := h b1 (by simp)
      have hb2 : b2 < 256 := h b2 (by simp)
      have hb3 : b3 < 256 := h b3 (by simp)
      have h1 : b1 / 4 < 64 := by omega
      have h2 : b1 % 4 * 16 + b2 / 16 < 64 := by omega
      have h3 : b2 % 16 * 4 + b3 / 64 < 64 := by omega
      have h4 : b3 % 64 < 64 := by omega
      simp only [b64encode, b64DecodeLoop,
        if_neg (b64Char_ne_61 _ h1), if_neg (b64Char_ne_61 _ h2),
        if_neg (b64Char_ne_61 _ h3), if_neg (b64Char_ne_61 _ h4),
        b64Val_b64Char _ h1, b64Val_b64Char _ h2, b64Val_b64Char _ h3,
        b64Val_b64Char _ h4]
      rw [ih (fun b hb => h b (by simp [hb]))]
      simp only [Option.map_some']
      congr 1
      have e1 : b1 / 4 * 4 + (b1 % 4 * 16 + b2 / 16) / 16 = b1 := by omega
      have e2 : (b1 % 4 * 16 + b2 / 16) % 16 * 16 + (b2 % 16 * 4 + b3 / 64) / 4 = b2 := by
        omega
      have e3 : (b2 % 16 * 4 + b3 / 64) % 4 * 64 + b3 % 64 = b3 := by omega
      rw [e1, e2, e3]
  | case2 b1 b2 =>
      intro h
      have hb1 : b1 < 256 := h b1 (by simp)
      have hb2 : b2 < 256 := h b2 (by simp)
      have h1 : b1 / 4 < 64 := by omega
      have h2 : b1 % 4 * 16 + b2 / 16 < 64 := by omega
      have h3 : b2 % 16 * 4 < 64 := by omega
      simp only [b64encode, b64DecodeLoop,
        if_neg (b64Char_ne_61 _ h1), if_neg (b64Char_ne_61 _ h2),
        if_neg (b64Char_ne_61 _ h3),
        b64Val_b64Char _ h1, b64Val_b64Char _ h2, b64Val_b64Char _ h3]
      norm_num
      constructor
      · omega
      · omega
  | case3 b1 =>
      intro h
      have hb1 : b1 < 256 := h b1 (by simp)
      have h1 : b1 / 4 < 64 := by omega
      have h2 : b1 % 4 * 16 < 64 := by omega
      simp only [b64encode, b64DecodeLoop,
        if_neg (b64Char_ne_61 _ h1), if_neg (b64Char_ne_61 _ h2),
        b64Val_b64Char _ h1, b64Val_b64Char _ h2]
      norm_num
      omega
  | case4 =>
      intro _
      simp [b64encode, b64DecodeLoop]

theorem ratecv_down_eq (xs : List Int) :
    ratecv xs 24000 8000 = some (ratecvLoop 3 1 (-1) 0 0 xs) := by
  have hg : Nat.gcd 24000 8000 = 8000 := rfl
  simp [ratecv, hg]

theorem ratecv_up_eq (xs : List Int) :
    ratecv xs 8000 24000 = some (ratecvLoop 1 3 (-3) 0 0 xs) := by
  have hg : Nat.gcd 8000 24000 = 8000 := rfl
  simp [ratecv, hg]

/-- C9.  For every 16-bit PCM buffer `x` whose byte length is a
multiple of 2, the round trip
`convert_mulaw_audio_to_pcm (convert_pcm_audio_to_mulaw x)` succeeds
(both conversions return a value) and produces valid 16-bit PCM —
an even byte length — whose sample count agrees with `x` up to the
resampling tolerance of two samples (four bytes): converting to the
8 kHz companded form and back preserves the sample-count structure. -/
theorem c9_audio_roundtrip (x : List Nat) (hx : x.length % 2 = 0) :
    ∃ y z, convert_pcm_audio_to_mulaw x = some y ∧
      convert_mulaw_audio_to_pcm y = some z ∧
      z.length % 2 = 0 ∧ z.length ≤ x.length ∧ x.length ≤ z.length + 4 := by
  have hnx : (bytesToSamples x).length = x.length / 2 := bytesToSamples_length x hx
  set n := (bytesToSamples x).length with hn
  set down := ratecvLoop 3 1 (-1) 0 0 (bytesToSamples x) with hdown
  have hdl : down.length = (n + 2) / 3 := by
    rw [hdown, ratecvLoop_down_length _ (-1) 0 0 (by norm_num) (by norm_num)]
    omega
  have hy : convert_pcm_audio_to_mulaw x = some (b64encode (lin2ulaw down)) := by
    unfold convert_pcm_audio_to_mulaw
    rw [if_neg (by omega), ratecv_down_eq]
  have hmlt : ∀ b ∈ lin2ulaw down, b < 256 := by
    intro b hb
    rcases List.mem_map.1 hb with ⟨s, _, rfl⟩
    exact st_14linear2ulaw_lt_256 s
  set m := (lin2ulaw down).length with hm
  have hml : m = down.length := List.length_map _ _
  set up := ratecvLoop 1 3 (-3) 0 0 (ulaw2lin (lin2ulaw down)) with hup
  have hul : (ulaw2lin (lin2ulaw down)).length = m := by
    rw [ulaw2lin, List.length_map, hm]
  have hupl : up.length = if m = 0 then 0 else 1 + 3 * (m - 1) := by
    rw [hup, ratecvLoop_up_length _ (-3) 0 0 (by norm_num) (by norm_num), hul]
    norm_num
  have hz : convert_mulaw_audio_to_pcm (b64encode (lin2ulaw down)) =
      some (samplesToBytes up) := by
    simp only [convert_mulaw_audio_to_pcm, b64decode_b64encode _ hmlt, ratecv_up_eq]
  have hm3 : m = (n + 2) / 3 := by omega
  have hfin : 2 * up.length ≤ x.length ∧ x.length ≤ 2 * up.length + 4 := by
    by_cases h0 : m = 0
    · rw [hupl, if_pos h0]
      omega
    · rw [hupl, if_neg h0]
      omega
  exact ⟨_, _, hy, hz, by rw [samplesToBytes_length]; omega,
    by rw [samplesToBytes_length]; exact hfin.1,
    by rw [samplesToBytes_length]; exact hfin.2⟩

/-- Witness for C9 at the concrete two-byte (one-sample) buffer `[0, 0]`. -/
theorem c9_audio_roundtrip_witness :
    ([0, 0] : List Nat).length % 2 = 0 ∧
      (∃ y z, convert_pcm_audio_to_mulaw [0, 0] = some y ∧
        convert_mulaw_audio_to_pcm y = some z ∧
        z.length % 2 = 0 ∧ z.length ≤ ([0, 0] : List Nat).length ∧
        ([0, 0] : List Nat).length ≤ z.length + 4) :=
  ⟨by decide, c9_audio_roundtrip [0, 0] (by decide)⟩

/-! ## Characterization lemmas for the Agent→Twilio pump -/

theorem audioPhase_state (s : String) (e : AgentEvent) (st : AgentPumpState)
    (hws : st.wsOpen = true) :
    (audioPhase s e st).state = { st with frames := st.frames ++ mediaDelta s e } := by
  unfold audioPhase mediaDelta sendFrame
  cases hfp : firstPart e with
  | none => simp [StepResult.state]
  | some part =>
      by_cases hu : e.author == "user"
      · simp [hu, StepResult.state]
      · cases hid : part.inline_data with
        | none => simp [hu, hid, StepResult.state]
        | some blob =>
            by_cases hm : blob.mime_type.startsWith "audio/pcm"
            · cases hd : blob.data with
              | none => simp [hu, hid, hm, hd, StepResult.state]
              | some pcmData =>
                  cases hc : convert_pcm_audio_to_mulaw pcmData with
                  | none => simp [hu, hid, hm, hd, hc, StepResult.state]
                  | some payload => simp [hu, hid, hm, hd, hc, hws, StepResult.state]
            · simp [hu, hid, hm, StepResult.state]

theorem audioPhase_state_closed (s : String) (e : AgentEvent) (st : AgentPumpState)
    (hws : st.wsOpen = false) :
    (audioPhase s e st).state = st := by
  unfold audioPhase sendFrame
  cases hfp : firstPart e with
  | none => simp [StepResult.state]
  | some part =>
      by_cases hu : e.author == "user"
      · simp [hu, StepResult.state]
      · cases hid : part.inline_data with
        | none => simp [hu, hid, StepResult.state]
        | some blob =>
            by_cases hm : blob.mime_type.startsWith "audio/pcm"
            · cases hd : blob.data with
              | none => simp [hu, hid, hm, hd, StepResult.state]
              | some pcmData =>
                  cases hc : convert_pcm_audio_to_mulaw pcmData with
                  | none => simp [hu, hid, hm, hd, hc, StepResult.state]
                  | some payload => simp [hu, hid, hm, hd, hc, hws, StepResult.state]
            · simp [hu, hid, hm, StepResult.state]

/-- When the first part is absent the audio phase is a no-op `continue`. -/
theorem audioPhase_ok_of_noPart (s : String) (e : AgentEvent) (st : AgentPumpState)
    (h : firstPart e = none) : audioPhase s e st = .ok st := by
  unfold audioPhase
  rw [h]

theorem interruptedPhase_state (s : String) (e : AgentEvent) (st : AgentPumpState)
    (hws : st.wsOpen = true) :
    (interruptedPhase s e st).state =
      { st with frames := st.frames ++ clearDelta s e ++ mediaDelta s e } := by
  unfold interruptedPhase clearDelta sendFrame
  by_cases hi : e.interrupted
  · simp only [hi, if_true, hws, if_pos]
    rw [audioPhase_state s e _ (by simp [hws])]
  · simp only [hi, if_false, Bool.false_eq_true]
    rw [audioPhase_state s e st hws]
    simp

theorem interruptedPhase_state_closed (s : String) (e : AgentEvent) (st : AgentPumpState)
    (hws : st.wsOpen = false) :
    (interruptedPhase s e st).state = st := by
  unfold interruptedPhase sendFrame
  by_cases hi : e.interrupted
  · simp [hi, hws, StepResult.state]
  · simp only [hi, if_false, Bool.false_eq_true]
    exact audioPhase_state_closed s e st hws

theorem interruptedPhase_ok_of_noPart (s : String) (e : AgentEvent) (st : AgentPumpState)
    (hws : st.wsOpen = true) (h : firstPart e = none) :
    interruptedPhase s e st = .ok { st with frames := st.frames ++ clearDelta s e } := by
  unfold interruptedPhase clearDelta sendFrame
  by_cases hi : e.interrupted
  · simp only [hi, if_true, hws, if_pos]
    rw [audioPhase_ok_of_noPart s e _ h]
  · simp only [hi, if_false, Bool.false_eq_true]
    rw [audioPhase_ok_of_noPart s e st h]
    simp

/-- The terminating branch: `turn_complete` with the latch set invokes
`end_call` once, closes the socket, and sends nothing. -/
theorem agentStep_terminate (s : String) (st : AgentPumpState) (e : AgentEvent)
    (hws : st.wsOpen = true) (htc : e.turn_complete = true)
    (hlt : terminateCallAfterTurn e st.terminate_call = true) :
    agentStep s st e =
      .ok { st with terminate_call := true, endCalls := st.endCalls + 1, wsOpen := false } := by
  unfold agentStep
  simp [htc, hlt, hws]

/-- The non-terminating step, on an open socket: the latch is updated,
the frames grow by mark ++ clear ++ media (in that order), the counter
increments exactly on `turn_complete`, and neither `end_call` nor the
socket state is touched. -/
theorem agentStep_state (s : String) (st : AgentPumpState) (e : AgentEvent)
    (hws : st.wsOpen = true)
    (hnt : ¬(e.turn_complete = true ∧ terminateCallAfterTurn e st.terminate_call = true)) :
    (agentStep s st e).state =
      { st with
        terminate_call := terminateCallAfterTurn e st.terminate_call,
        turn_counter := st.turn_counter + (if e.turn_complete then 1 else 0),
        frames := st.frames ++ markDelta s st e ++ clearDelta s e ++ mediaDelta s e } := by
  unfold agentStep markDelta
  by_cases htc : e.turn_complete
  · have hlt : terminateCallAfterTurn e st.terminate_call = false := by
      cases h : terminateCallAfterTurn e st.terminate_call
      · rfl
      · exact absurd ⟨htc, h⟩ hnt
    simp only [htc, if_true, hlt, Bool.false_eq_true, if_false, sendFrame, hws, if_pos]
    rw [interruptedPhase_state s e _ (by simp [hws])]
  · simp only [htc, Bool.false_eq_true, if_false]
    rw [interruptedPhase_state s e _ (by simp [hws])]
    simp

/-- On a closed socket a step never sends and never increments the
counter; only the latch updates, plus one further `end_call` if the
terminating branch re-fires (its second `websocket.close` then
raises). -/
theorem agentStep_state_closed (s : String) (st : AgentPumpState) (e : AgentEvent)
    (hws : st.wsOpen = false) :
    (agentStep s st e).state =
      { st with
        terminate_call := terminateCallAfterTurn e st.terminate_call,
        endCalls := st.endCalls +
          (if e.turn_complete ∧ terminateCallAfterTurn e st.terminate_call then 1 else 0) } := by
  unfold agentStep
  by_cases htc : e.turn_complete
  · by_cases hlt : terminateCallAfterTurn e st.terminate_call
    · simp [htc, hlt, hws, StepResult.state]
    · simp only [htc, if_true, hlt, Bool.false_eq_true, if_false, sendFrame, hws, if_neg]
      simp [htc, hlt, StepResult.state]
  · simp only [htc, Bool.false_eq_true, if_false]
    rw [interruptedPhase_state_closed s e _ (by simp [hws])]
    simp [htc]

/-- Every step only appends to the sent frames. -/
theorem agentStep_frames_mono (s : String) (st : AgentPumpState) (e : AgentEvent) :
    ∃ δ, (agentStep s st e).state.frames = st.frames ++ δ := by
  cases hws : st.wsOpen
  · rw [agentStep_state_closed s st e hws]
    exact ⟨[], by simp⟩
  · by_cases hnt : e.turn_complete = true ∧ terminateCallAfterTurn e st.terminate_call = true
    · rw [agentStep_terminate s st e hws hnt.1 hnt.2]
      exact ⟨[], by simp [StepResult.state]⟩
    · rw [agentStep_state s st e hws hnt]
      exact ⟨markDelta s st e ++ clearDelta s e ++ mediaDelta s e, by simp⟩

/-- The pump only appends to the sent frames. -/
theorem runAgentPump_frames_mono (s : String) :
    ∀ (evs : List AgentEvent) (st : AgentPumpState),
      ∃ δ, (runAgentPump s evs st).frames = st.frames ++ δ := by
  intro evs
  induction evs with
  | nil => exact fun st => ⟨[], by simp [runAgentPump]⟩
  | cons e rest ih =>
      intro st
      obtain ⟨δ1, hδ1⟩ := agentStep_frames_mono s st e
      unfold runAgentPump
      cases hstep : agentStep s st e with
      | ok st' =>
          obtain ⟨δ2, hδ2⟩ := ih st'
          refine ⟨δ1 ++ δ2, ?_⟩
          rw [hδ2]
          rw [hstep] at hδ1
          simp only [StepResult.state] at hδ1
          rw [hδ1, List.append_assoc]
      | err st' =>
          refine ⟨δ1, ?_⟩
          rw [hstep] at hδ1
          simpa [StepResult.state] using hδ1

/-- Without a `conclude_call` signal the latch stays down and the pump
never calls `end_call`. -/
theorem runAgentPump_endCalls_no_conclude (s : String) :
    ∀ (evs : List AgentEvent) (st : AgentPumpState),
      (∀ e ∈ evs, terminateCallAfterTurn e false = false) →
      st.terminate_call = false →
      (runAgentPump s evs st).endCalls = st.endCalls ∧
        (runAgentPump s evs st).terminate_call = false := by
  intro evs
  induction evs with
  | nil => exact fun st _ hl => ⟨rfl, hl⟩
  | cons e rest ih =>
      intro st hall hl
      have hlat : terminateCallAfterTurn e st.terminate_call = false := by
        rw [hl]
        exact hall e (by simp)
      have hrest : ∀ e' ∈ rest, terminateCallAfterTurn e' false = false :=
        fun e' he' => hall e' (by simp [he'])
      unfold runAgentPump
      have hstate : (agentStep s st e).state.endCalls = st.endCalls ∧
          (agentStep s st e).state.terminate_call = false := by
        cases hws : st.wsOpen
        · rw [agentStep_state_closed s st e hws]
          simp [hlat]
        · rw [agentStep_state s st e hws (by simp [hlat])]
          simp [hlat]
      cases hstep : agentStep s st e with
      | ok st' =>
          rw [hstep] at hstate
          simp only [StepResult.state] at hstate
          obtain ⟨h1, h2⟩ := ih st' hrest hstate.2
          exact ⟨by rw [h1, hstate.1], h2⟩
      | err st' =>
          rw [hstep] at hstate
          simpa [StepResult.state] using hstate

/-- The conclude-then-TurnComplete scenario at pump level: after `e1`
(carrying a `conclude_call` tool call, not itself a turn boundary, no
content parts) the latch is set but nothing is hung up; at `e2`'s
turn-complete the terminating branch issues one `end_call` and closes
the socket, sending no mark. -/
theorem concludeScenarioPump (s : String) (e1 e2 : AgentEvent)
    (h1 : terminateCallAfterTurn e1 false = true)
    (h2 : e1.turn_complete = false)
    (h3 : firstPart e1 = none)
    (h4 : e2.turn_complete = true) :
    runAgentPump s [e1] initAgentPumpState =
      { terminate_call := true, turn_counter := 0, wsOpen := true,
        frames := clearDelta s e1, endCalls := 0 } ∧
    runAgentPump s [e1, e2] initAgentPumpState =
      { terminate_call := true, turn_counter := 0, wsOpen := false,
        frames := clearDelta s e1, endCalls := 1 } := by
  have hstep1 : agentStep s initAgentPumpState e1 =
      .ok { terminate_call := true, turn_counter := 0, wsOpen := true,
            frames := clearDelta s e1, endCalls := 0 } := by
    unfold agentStep
    simp only [h2, Bool.false_eq_true, if_false]
    rw [interruptedPhase_ok_of_noPart s e1 _ rfl h3]
    rw [show terminateCallAfterTurn e1 initAgentPumpState.terminate_call = true from h1]
    simp [initAgentPumpState]
  have hstep2 : agentStep s
      { terminate_call := true, turn_counter := 0, wsOpen := true,
        frames := clearDelta s e1, endCalls := 0 } e2 =
      .ok { terminate_call := true, turn_counter := 0, wsOpen := false,
            frames := clearDelta s e1, endCalls := 1 } := by
    rw [agentStep_terminate s _ e2 rfl h4 (by simp [terminateCallAfterTurn])]
  constructor
  · simp [runAgentPump, hstep1]
  · simp [runAgentPump, hstep1, hstep2]

/-! ## The claims -/

/-- C1 (amended).  A `conclude_call` tool invocation sets the
termination latch without hanging up — `end_call` is deferred to the
next turn-complete event — but at that turn-complete the handler
invokes `end_call` and closes the socket **without** first flushing the
turn's `mark` frame: the terminating branch sends nothing (the mark is
only emitted on non-terminating turns), contrary to the spec's
"flush mark first" contract. -/
theorem c1_deferred_hangup_without_mark_flush (s : String) (e1 e2 : AgentEvent)
    (h1 : terminateCallAfterTurn e1 false = true)
    (h2 : e1.turn_complete = false)
    (h3 : firstPart e1 = none)
    (h4 : e2.turn_complete = true) :
    (runAgentPump s [e1] initAgentPumpState).terminate_call = true ∧
    (runAgentPump s [e1] initAgentPumpState).endCalls = 0 ∧
    (runAgentPump s [e1] initAgentPumpState).wsOpen = true ∧
    (runAgentPump s [e1, e2] initAgentPumpState).endCalls = 1 ∧
    (runAgentPump s [e1, e2] initAgentPumpState).wsOpen = false ∧
    countMark (runAgentPump s [e1, e2] initAgentPumpState).frames = 0 := by
  obtain ⟨ha, hb⟩ := concludeScenarioPump s e1 e2 h1 h2 h3 h4
  rw [ha, hb]
  refine ⟨rfl, rfl, rfl, rfl, rfl, ?_⟩
  unfold countMark clearDelta
  split <;> simp

/-- C1 witness at the concrete conclude / turn-complete events. -/
theorem c1_deferred_hangup_without_mark_flush_witness :
    (runAgentPump "S1" [concludeEvt] initAgentPumpState).terminate_call = true ∧
    (runAgentPump "S1" [concludeEvt] initAgentPumpState).endCalls = 0 ∧
    (runAgentPump "S1" [concludeEvt] initAgentPumpState).wsOpen = true ∧
    (runAgentPump "S1" [concludeEvt, turnEvt] initAgentPumpState).endCalls = 1 ∧
    (runAgentPump "S1" [concludeEvt, turnEvt] initAgentPumpState).wsOpen = false ∧
    countMark (runAgentPump "S1" [concludeEvt, turnEvt] initAgentPumpState).frames = 0 :=
  c1_deferred_hangup_without_mark_flush "S1" concludeEvt turnEvt
    (by decide) (by decide) (by decide) (by decide)

/-- C1 counterexample to the claim as stated: in the conclude-then-
TurnComplete run the hangup does happen at the turn boundary
(`endCalls = 1`, socket closed), yet the frames sent over the whole
run are empty — the turn's mark was never flushed to the transport
before `end_call`. -/
theorem c1_counterexample :
    (runAgentPump "S1" [concludeEvt, turnEvt] initAgentPumpState).endCalls = 1 ∧
    (runAgentPump "S1" [concludeEvt, turnEvt] initAgentPumpState).wsOpen = false ∧
    (runAgentPump "S1" [concludeEvt, turnEvt] initAgentPumpState).frames = [] := by
  decide

/-- C2 (amended).  For a call that reaches ACTIVE with a non-empty call
sid: a shutdown with no `conclude_call` signal anywhere in the event
stream invokes `end_call` exactly once (from the `finally` teardown),
but the conclude-then-TurnComplete sequence invokes it exactly
**twice** — once inside the agent pump's terminating branch and once
more in the `finally` teardown, which runs unconditionally. -/
theorem c2_end_call_counts (frames : List TwFrame) (events : List AgentEvent)
    (sid cid : String) (lead : Option Json) (rest : List TwFrame)
    (hh : handshakeLoop frames = .active sid cid lead rest) (hcid : cid ≠ "") :
    ((∀ e ∈ events, terminateCallAfterTurn e false = false) →
        (runBridge frames events).totalEndCallCount = 1) ∧
    (∀ e1 e2, events = [e1, e2] → terminateCallAfterTurn e1 false = true →
        e1.turn_complete = false → firstPart e1 = none → e2.turn_complete = true →
        (runBridge frames events).totalEndCallCount = 2) := by
  have hbr : runBridge frames events =
      .ranActive (runAgentPump sid events initAgentPumpState)
        (runTwilioPump lead rest)
        (finallyCleanup true false cid false)
        ((runAgentPump sid events initAgentPumpState).endCalls +
          (if cid = "" then 0 else 1)) := by
    unfold runBridge
    rw [hh]
    rfl
  constructor
  · intro hnone
    have h0 := runAgentPump_endCalls_no_conclude sid events initAgentPumpState hnone rfl
    rw [hbr]
    unfold CallResult.totalEndCallCount
    rw [h0.1]
    simp [initAgentPumpState, hcid]
  · intro e1 e2 hev h1 h2 h3 h4
    subst hev
    obtain ⟨-, hb⟩ := concludeScenarioPump sid e1 e2 h1 h2 h3 h4
    rw [hbr]
    unfold CallResult.totalEndCallCount
    rw [hb]
    simp [hcid]

/-- C2 witness: with the concrete handshake frame, a stop-only call
yields one `end_call`, the conclude-then-TurnComplete call yields two. -/
theorem c2_end_call_counts_witness :
    (runBridge [startFrame, TwFrame.stop] []).totalEndCallCount = 1 ∧
    (runBridge [startFrame] [concludeEvt, turnEvt]).totalEndCallCount = 2 :=
  ⟨(c2_end_call_counts [startFrame, TwFrame.stop] [] "S1" "C1"
      (some (Json.obj [])) [TwFrame.stop] rfl (by decide)).1 (by intro e he; cases he),
   (c2_end_call_counts [startFrame] [concludeEvt, turnEvt] "S1" "C1"
      (some (Json.obj [])) [] rfl (by decide)).2 concludeEvt turnEvt rfl
      (by decide) (by decide) (by decide) (by decide)⟩

/-- C2 counterexample to "exactly once": the conclude-then-TurnComplete
call performs two `end_call` invocations on `C1`, not one. -/
theorem c2_counterexample :
    (runBridge [startFrame] [concludeEvt, turnEvt]).totalEndCallCount = 2 ∧
    (2 : Nat) ≠ 1 := by
  constructor
  · rfl
  · decide

/-- C7 (amended).  On a turn-complete processed while the latch stays
unset and the socket is open, the handler emits a `mark` frame named
with the **pre-increment** counter value (`turn_0_complete`,
`turn_1_complete`, …) and increments the counter only afterwards; the
spec's claim that the mark carries the new, post-increment value does
not match the source. -/
theorem c7_turn_mark_pre_increment (s : String) (st : AgentPumpState) (e : AgentEvent)
    (hws : st.wsOpen = true) (htc : e.turn_complete = true)
    (hnl : terminateCallAfterTurn e st.terminate_call = false) :
    (agentStep s st e).state.turn_counter = st.turn_counter + 1 ∧
    (agentStep s st e).state.frames =
      st.frames ++ [.mark s ("turn_" ++ toString st.turn_counter ++ "_complete")]
        ++ clearDelta s e ++ mediaDelta s e := by
  have hnt : ¬(e.turn_complete = true ∧ terminateCallAfterTurn e st.terminate_call = true) := by
    simp [hnl]
  rw [agentStep_state s st e hws hnt]
  constructor
  · simp [htc]
  · simp [markDelta, htc]

/-- C7 witness at the first turn of a fresh pump. -/
theorem c7_turn_mark_pre_increment_witness :
    (agentStep "S1" initAgentPumpState turnEvt).state.turn_counter =
      initAgentPumpState.turn_counter + 1 ∧
    (agentStep "S1" initAgentPumpState turnEvt).state.frames =
      initAgentPumpState.frames ++
        [.mark "S1" ("turn_" ++ toString initAgentPumpState.turn_counter ++ "_complete")]
        ++ clearDelta "S1" turnEvt ++ mediaDelta "S1" turnEvt :=
  c7_turn_mark_pre_increment "S1" initAgentPumpState turnEvt rfl (by decide) (by decide)

/-- C7 counterexample to the claim as stated: after the first
turn-complete the counter is 1, but the mark that was sent is named
`turn_0_complete`, not the post-increment `turn_1_complete`. -/
theorem c7_counterexample :
    (runAgentPump "S1" [turnEvt] initAgentPumpState).turn_counter = 1 ∧
    (runAgentPump "S1" [turnEvt] initAgentPumpState).frames =
      [.mark "S1" "turn_0_complete"] ∧
    ("turn_0_complete" : String) ≠ "turn_1_complete" := by
  refine ⟨rfl, rfl, ?_⟩
  decide

/-- C8 (amended).  An `Interrupted` event processed on an open socket
whose step does not take the terminating branch results in exactly one
`clear` frame, placed after the event's own mark (if any) and before
the event's own media; every frame any later event contributes is
appended strictly afterwards, so the clear precedes all further
forwarded audio.  An `Interrupted` event coinciding with (or arriving
after) the terminating TurnComplete produces no clear — the `break` in
the terminating branch skips the interrupted handling. -/
theorem c8_clear_before_further_audio (s : String) (st : AgentPumpState) (e : AgentEvent)
    (rest : List AgentEvent) (hws : st.wsOpen = true)
    (hnt : ¬(e.turn_complete = true ∧ terminateCallAfterTurn e st.terminate_call = true))
    (hi : e.interrupted = true) :
    ∃ δ, (runAgentPump s (e :: rest) st).frames =
      st.frames ++ markDelta s st e ++ [.clear s] ++ mediaDelta s e ++ δ := by
  have hstate := agentStep_state s st e hws hnt
  have hclear : clearDelta s e = [.clear s] := by simp [clearDelta, hi]
  unfold runAgentPump
  cases hstep : agentStep s st e with
  | ok st' =>
      obtain ⟨δ2, hδ2⟩ := runAgentPump_frames_mono s rest st'
      rw [hstep] at hstate
      simp only [StepResult.state] at hstate
      refine ⟨δ2, ?_⟩
      rw [hδ2, hstate]
      simp [hclear]
  | err st' =>
      rw [hstep] at hstate
      simp only [StepResult.state] at hstate
      refine ⟨[], ?_⟩
      rw [hstate]
      simp [hclear]

/-- C8 witness: a lone interrupted event on a fresh pump. -/
theorem c8_clear_before_further_audio_witness :
    ∃ δ, (runAgentPump "S1"
        [{ turn_complete := false, interrupted := true, author := "model",
           has_actions := false, function_calls := [], content := none }]
        initAgentPumpState).frames =
      initAgentPumpState.frames ++
        markDelta "S1" initAgentPumpState
          { turn_complete := false, interrupted := true, author := "model",
            has_actions := false, function_calls := [], content := none } ++
        [.clear "S1"] ++
        mediaDelta "S1"
          { turn_complete := false, interrupted := true, author := "model",
            has_actions := false, function_calls := [], content := none } ++ δ :=
  c8_clear_before_further_audio "S1" initAgentPumpState
    { turn_complete := false, interrupted := true, author := "model",
      has_actions := false, function_calls := [], content := none }
    [] rfl (by decide) (by decide)

/-- C8 counterexample to the claim as stated: take the conclude event
followed by an event that is both a turn boundary and an interruption.
The input contains exactly one `Interrupted` event, yet the pump sends
zero `clear` frames — the terminating branch `break`s before the
interrupted handling. -/
theorem c8_counterexample :
    countClear (runAgentPump "S1" [concludeEvt, turnInterruptEvt] initAgentPumpState).frames
        = 0 ∧
      turnInterruptEvt.interrupted = true := by
  decide

/-- C10.  Only the first element of an event's content parts is
examined for audio: the media frames a non-terminating step appends are
exactly `mediaDelta`, which (a) is a function of the author and the
first part alone — audio in any later part of the same event is never
forwarded (conjunct three: the delta is invariant under changing every
part after the first) — and (b) is empty when the event has no content
parts or is authored by "user". -/
theorem c10_first_part_only (s : String) (st : AgentPumpState) (e : AgentEvent)
    (hws : st.wsOpen = true)
    (hnt : ¬(e.turn_complete = true ∧ terminateCallAfterTurn e st.terminate_call = true)) :
    mediaPayloads (agentStep s st e).state.frames =
      mediaPayloads st.frames ++ mediaPayloads (mediaDelta s e) ∧
    ((firstPart e = none ∨ e.author = "user") → mediaDelta s e = []) ∧
    (∀ p t1 t2, mediaDelta s { e with content := some (p :: t1) } =
      mediaDelta s { e with content := some (p :: t2) }) := by
  refine ⟨?_, ?_, ?_⟩
  · rw [agentStep_state s st e hws hnt]
    show mediaPayloads (st.frames ++ markDelta s st e ++ clearDelta s e ++ mediaDelta s e) = _
    unfold mediaPayloads
    rw [List.filterMap_append, List.filterMap_append, List.filterMap_append]
    have hmark : (markDelta s st e).filterMap
        (fun f => match f with | .media _ p => some p | _ => none) = [] := by
      unfold markDelta
      split <;> simp
    have hclear : (clearDelta s e).filterMap
        (fun f => match f with | .media _ p => some p | _ => none) = [] := by
      unfold clearDelta
      split <;> simp
    rw [hmark, hclear]
    simp
  · intro h
    rcases h with h | h
    · unfold mediaDelta
      rw [h]
    · unfold mediaDelta
      cases firstPart e with
      | none => rfl
      | some part => simp [h]
  · intro p t1 t2
    rfl

/-- C10 witness: an event whose audio blob sits in the second part
produces no media frame at all. -/
theorem c10_first_part_only_witness :
    (mediaPayloads (agentStep "S1" initAgentPumpState partTwoAudioEvt).state.frames =
      mediaPayloads initAgentPumpState.frames ++
        mediaPayloads (mediaDelta "S1" partTwoAudioEvt)) ∧
    mediaDelta "S1" partTwoAudioEvt = [] :=
  ⟨(c10_first_part_only "S1" initAgentPumpState partTwoAudioEvt rfl (by decide)).1,
   by decide⟩

/-- C3 (amended).  A `Media` frame with an unparseable payload is
**not** dropped: the decode error propagates to the pump-level `except`
(which sits outside the read loop), so the Transport→Agent pump ends at
that frame with nothing more forwarded — the remaining frames of the
sequence are never processed — and the bridge proceeds to teardown
(terminating the call); parseable frames, by contrast, are forwarded
and processing continues. -/
theorem c3_bad_media_ends_pump (p : List Nat) (rest : List TwFrame) (st : TwilioPumpState)
    (hbad : convert_mulaw_audio_to_pcm p = none) :
    runTwilioPumpFrames (.media (some p) :: rest) st = { st with errored := true } ∧
    (∀ q pcm, convert_mulaw_audio_to_pcm q = some pcm →
      runTwilioPumpFrames (.media (some q) :: rest) st =
        runTwilioPumpFrames rest { st with sentAudio := st.sentAudio ++ [pcm] }) := by
  constructor
  · simp only [runTwilioPumpFrames, twilioStep, hbad]
  · intro q pcm hq
    simp only [runTwilioPumpFrames, twilioStep, hq]

/-- C3 witness: the payload `"a"` is unparseable (its single base64
data character is 1 mod 4) and ends the pump; the empty payload is
parseable and is forwarded as empty PCM with processing continuing. -/
theorem c3_bad_media_ends_pump_witness :
    runTwilioPumpFrames [.media (some [97]), .stop] initTwilioPumpState =
      { initTwilioPumpState with errored := true } ∧
    runTwilioPumpFrames [.media (some []), .stop] initTwilioPumpState =
      runTwilioPumpFrames [.stop]
        { initTwilioPumpState with sentAudio := initTwilioPumpState.sentAudio ++ [[]] } :=
  ⟨(c3_bad_media_ends_pump [97] [.stop] initTwilioPumpState rfl).1,
   (c3_bad_media_ends_pump [97] [.stop] initTwilioPumpState rfl).2 [] [] rfl⟩

/-- C3 counterexample to the claim as stated: with frames
`start, media "a", media "AAAA"` the malformed second frame ends the
pump — the following valid frame is never decoded or forwarded
(`sentAudio = []`) — and the call **is** terminated (one `end_call`
from teardown), not kept alive. -/
theorem c3_counterexample :
    (runBridge [startFrame, .media (some [97]), .media (some [65, 65, 65, 65])]
        []).twilioSentAudio = [] ∧
    (runBridge [startFrame, .media (some [97]), .media (some [65, 65, 65, 65])]
        []).twilioErrored = true ∧
    (runBridge [startFrame, .media (some [97]), .media (some [65, 65, 65, 65])]
        []).totalEndCallCount = 1 := by
  decide

/-- C4 (amended).  Only JSON-level failures are caught by
`decode_json_string`: when the blob is valid base64-url and valid UTF-8
but not valid JSON (the missing-blob case decodes `""`, which is not
valid JSON), the function returns Python `None` — not an empty
record — and the handshake proceeds with that `None` lead context.
When the blob is **not** valid base64-url (or not UTF-8), the exception
propagates out of `decode_json_string`, the handshake aborts into
`manage_stream`'s exception path (`end_call` + `close(1011)`), and no
empty-context call proceeds. -/
theorem c4_decode_error_paths (blob : List Nat) (sid cid : String) :
    (urlsafeB64decode blob = none → decode_json_string blob = .error ()) ∧
    (∀ bs, urlsafeB64decode blob = some bs → utf8Decode bs = none →
      decode_json_string blob = .error ()) ∧
    (∀ bs text, urlsafeB64decode blob = some bs → utf8Decode bs = some text →
      jsonLoads text = none → decode_json_string blob = .ok none) ∧
    (decode_json_string blob = .error () →
      handshakeLoop [.start sid cid (some (some blob))] = .startCrash cid) ∧
    (∀ r, decode_json_string blob = .ok r → sid ≠ "" →
      handshakeLoop [.start sid cid (some (some blob))] = .active sid cid r []) := by
  refine ⟨?_, ?_, ?_, ?_, ?_⟩
  · intro h
    unfold decode_json_string
    rw [h]
  · intro bs h1 h2
    simp only [decode_json_string, h1, h2]
  · intro bs text h1 h2 h3
    simp only [decode_json_string, h1, h2, h3]
  · intro h
    unfold handshakeLoop
    simp only [Option.getD_some]
    rw [h]
  · intro r h hsid
    unfold handshakeLoop
    simp only [Option.getD_some]
    rw [h]
    simp [hsid]

/-- C4 witness: the blob `"!!"` (no base64 data characters, decodes to
the empty byte string, which is not JSON) yields `.ok none`; the blob
`"e30="` decodes to the empty JSON object and the handshake activates
with it. -/
theorem c4_decode_error_paths_witness :
    decode_json_string [33, 33] = .ok none ∧
    handshakeLoop [.start "S1" "C1" (some (some [101, 51, 48, 61]))] =
      .active "S1" "C1" (some (Json.obj [])) [] :=
  ⟨(c4_decode_error_paths [33, 33] "S1" "C1").2.2.1 [] [] rfl rfl rfl,
   (c4_decode_error_paths [101, 51, 48, 61] "S1" "C1").2.2.2.2
     (some (Json.obj [])) rfl (by decide)⟩

/-- C4 counterexample to the claim as stated: the blob `"a"` is not
valid base64-url; `decode_json_string` raises (the error is not a
caught `DecodeError`) and the handshake crashes into the
internal-error path instead of proceeding with an empty lead
context. -/
theorem c4_counterexample :
    decode_json_string [97] = .error () ∧
    handshakeLoop [.start "S1" "C1" (some (some [97]))] = .startCrash "C1" :=
  ⟨rfl, rfl⟩

/-- Reading one non-`start` frame just recurses. -/
theorem handshakeLoop_cons_nonstart (f : TwFrame) (xs : List TwFrame)
    (hf : isStartFrame f = false) :
    handshakeLoop (f :: xs) = handshakeLoop xs := by
  cases f <;> first
    | rfl
    | simp [isStartFrame] at hf

theorem handshakeFramesRead_cons_nonstart (f : TwFrame) (xs : List TwFrame)
    (hf : isStartFrame f = false) :
    handshakeFramesRead (f :: xs) = 1 + handshakeFramesRead xs := by
  cases f <;> first
    | rfl
    | simp [isStartFrame] at hf

/-- C5 (amended).  While waiting for `Start` the bridge discards every
other frame and activates on the first `Start` — but there is **no**
maximum handshake-frame count: a trace of `n` non-start frames before
the `Start` makes the loop read exactly `n + 1` frames for arbitrary
`n`, and a trace with no `Start` at all is read to the end (the loop
ends only when the transport disconnects; no CLOSED-on-bound
transition with a protocol-error code exists). -/
theorem c5_handshake_discards_until_start (junk : List TwFrame) (sid cid : String)
    (params : Option (Option (List Nat))) (rest : List TwFrame)
    (hj : ∀ f ∈ junk, isStartFrame f = false) :
    handshakeLoop (junk ++ TwFrame.start sid cid params :: rest) =
      handshakeLoop (TwFrame.start sid cid params :: rest) ∧
    handshakeFramesRead (junk ++ TwFrame.start sid cid params :: rest) =
      junk.length + 1 ∧
    handshakeLoop junk = .disconnected := by
  induction junk with
  | nil => exact ⟨rfl, rfl, rfl⟩
  | cons f l ih =>
      have hf : isStartFrame f = false := hj f (by simp)
      obtain ⟨ih1, ih2, ih3⟩ := ih (fun g hg => hj g (by simp [hg]))
      refine ⟨?_, ?_, ?_⟩
      · rw [List.cons_append, handshakeLoop_cons_nonstart f _ hf, ih1]
      · rw [List.cons_append, handshakeFramesRead_cons_nonstart f _ hf, ih2]
        simp [Nat.add_comm]
      · rw [handshakeLoop_cons_nonstart f _ hf, ih3]

/-- C5 witness: two junk frames before a concrete `start`. -/
theorem c5_handshake_discards_until_start_witness :
    handshakeLoop [TwFrame.connected, TwFrame.unknown, startFrame] =
      handshakeLoop [startFrame] ∧
    handshakeFramesRead [TwFrame.connected, TwFrame.unknown, startFrame] = 3 ∧
    handshakeLoop [TwFrame.connected, TwFrame.unknown] = .disconnected :=
  c5_handshake_discards_until_start [TwFrame.connected, TwFrame.unknown]
    "S1" "C1" (some (some [101, 51, 48, 61])) [] (by decide)

/-- C5 counterexample to the claim as stated: no fixed bound `N` caps
the number of frames the handshake loop reads — `N + 1` `connected`
frames are all read. -/
theorem c5_counterexample :
    ¬ ∃ N : Nat, ∀ fs : List TwFrame, handshakeFramesRead fs ≤ N := by
  rintro ⟨N, h⟩
  have hrep : ∀ n : Nat, handshakeFramesRead (List.replicate n TwFrame.connected) = n := by
    intro n
    induction n with
    | zero => rfl
    | succ k ih =>
        rw [List.replicate_succ,
          handshakeFramesRead_cons_nonstart TwFrame.connected _ rfl, ih]
        omega
  have hN := h (List.replicate (N + 1) TwFrame.connected)
  rw [hrep] at hN
  omega

/-- C6 (amended).  In the `finally` teardown: the pending pump tasks
are cancelled, the input sink (`live_request_queue`) close runs inside
its own guard, and `end_call` is issued when a call sid is known — but
the "close the inference session" step **never** executes, because
`start_agent_session` never assigns `self.agent_session` (it stays
`None`); moreover `end_call` and the final socket close are not
guarded, so an exception raised by `end_call` escapes the `finally` and
skips the socket close. -/
theorem c6_teardown_steps (queueSet : Bool) (cid : String) (raises : Bool) :
    CleanupStep.cancelTasks ∈ (finallyCleanup queueSet
      (start_agent_session initBridgeState).agent_session_set cid raises).1 ∧
    (queueSet = true → CleanupStep.queueClose ∈ (finallyCleanup queueSet
      (start_agent_session initBridgeState).agent_session_set cid raises).1) ∧
    CleanupStep.sessionClose ∉ (finallyCleanup queueSet
      (start_agent_session initBridgeState).agent_session_set cid raises).1 ∧
    (cid ≠ "" → CleanupStep.endCall ∈ (finallyCleanup queueSet
      (start_agent_session initBridgeState).agent_session_set cid raises).1) ∧
    (raises = false → CleanupStep.wsClose ∈ (finallyCleanup queueSet
      (start_agent_session initBridgeState).agent_session_set cid raises).1) ∧
    (cid ≠ "" → raises = true → CleanupStep.wsClose ∉ (finallyCleanup queueSet
      (start_agent_session initBridgeState).agent_session_set cid raises).1 ∧
      (finallyCleanup queueSet
        (start_agent_session initBridgeState).agent_session_set cid raises).2 = true) := by
  by_cases hc : cid = "" <;>
    cases queueSet <;> cases raises <;>
      simp [finallyCleanup, start_agent_session, initBridgeState, hc]

/-- C6 witness at `queueSet = true`, call sid `C1`, `end_call`
succeeding. -/
theorem c6_teardown_steps_witness :
    CleanupStep.sessionClose ∉ (finallyCleanup true
      (start_agent_session initBridgeState).agent_session_set "C1" false).1 ∧
    CleanupStep.endCall ∈ (finallyCleanup true
      (start_agent_session initBridgeState).agent_session_set "C1" false).1 ∧
    CleanupStep.wsClose ∈ (finallyCleanup true
      (start_agent_session initBridgeState).agent_session_set "C1" false).1 :=
  ⟨(c6_teardown_steps true "C1" false).2.2.1,
   (c6_teardown_steps true "C1" false).2.2.2.1 (by decide),
   (c6_teardown_steps true "C1" false).2.2.2.2.1 rfl⟩

/-- C6 counterexample to the claim as stated: on a complete
stop-triggered call the executed teardown steps are queue close, task
cancellation, `end_call` and socket close — the inference-session close
step is absent, so not every teardown step executes. -/
theorem c6_counterexample :
    CleanupStep.sessionClose ∉ (runBridge [startFrame, TwFrame.stop] []).cleanupSteps ∧
    (runBridge [startFrame, TwFrame.stop] []).cleanupSteps =
      [CleanupStep.queueClose, CleanupStep.cancelTasks,
       CleanupStep.endCall, CleanupStep.wsClose] := by
  decide

end LeadAgent

